import Mathlib

/-! # Review bot: merge gating, check runners and status publication

A shallow embedding of `main.go` (package `main`) of the review bot.

Modelling conventions

* Go `string` values are Lean `String`s.  All strings handled here are valid
  UTF-8 (file names, review states and commit identifiers are decoded from
  JSON; the patterns searched for are ASCII), so a byte-wise substring test
  agrees with the test on sequences of code points.
* A call to the hosting API is represented by its outcome: `Except String α`,
  where `.error msg` carries the text `err.Error()` that `%v` prints.
* `time.Sleep` only delays and is left out; measured wall-clock durations are
  read from an oracle.
* Go `int` values are `Int`; loop counters that only count list elements are
  `Nat` (a list never holds 2^63 elements).
-/

namespace ReviewBot

/-! ## Fragments of the Go standard library used by the bot -/

namespace strings

/-- Go `strings.Contains(s, substr)`: `substr` occurs in `s` as a contiguous block. -/
def Contains (s substr : String) : Bool :=
  s.data.tails.any (fun t => substr.data.isPrefixOf t)

/-- Go `strings.HasSuffix(s, suffix)`. -/
def HasSuffix (s suffix : String) : Bool :=
  suffix.data.isSuffixOf s.data

/-- Go `strings.ToLower(s)` on valid UTF-8: every code point is replaced by its
image under `unicode.ToLower`, which is passed as `lower`. -/
def ToLower (lower : Char → Char) (s : String) : String :=
  ⟨s.data.map lower⟩

end strings

namespace fmt

/-- The verb `%d` applied to a Go `int`. -/
def d (n : Int) : String := toString n

end fmt

namespace time

/-- Go `time.Duration`: a signed count of nanoseconds. -/
abbrev Duration := Int

/-- Digits written by `fmtFrac`, least significant first; trailing zeros are omitted. -/
def fmtFrac.loop : Nat → List Char → Nat → Bool → List Char × Nat × Bool
  | 0, buf, v, print => (buf, v, print)
  | n + 1, buf, v, print =>
    let digit := v % 10
    let print := print || digit != 0
    let buf := if print then Char.ofNat (digit + 48) :: buf else buf
    fmtFrac.loop n buf (v / 10) print

/-- Go `fmtFrac`: puts the fraction `v / 10^prec` in front of `buf` and returns the
integer part. -/
def fmtFrac (buf : List Char) (v prec : Nat) : List Char × Nat :=
  let r := fmtFrac.loop prec buf v false
  (if r.2.2 then '.' :: r.1 else r.1, r.2.1)

/-- Go `fmtInt`: puts the decimal digits of `v` in front of `buf`. -/
def fmtInt (buf : List Char) (v : Nat) : List Char :=
  Nat.toDigits 10 v ++ buf

/-- Go `Duration.String`. -/
def Duration.String (d : Duration) : String :=
  let u := d.natAbs
  let body : List Char :=
    if u < 1000000000 then
      if u = 0 then ['0', 's']
      else if u < 1000 then
        let r := fmtFrac ['n', 's'] u 0
        fmtInt r.1 r.2
      else if u < 1000000 then
        let r := fmtFrac ['\u00b5', 's'] u 3
        fmtInt r.1 r.2
      else
        let r := fmtFrac ['m', 's'] u 6
        fmtInt r.1 r.2
    else
      let r := fmtFrac ['s'] u 9
      let u := r.2
      let buf := fmtInt r.1 (u % 60)
      let u := u / 60
      if u > 0 then
        let buf := fmtInt ('m' :: buf) (u % 60)
        let u := u / 60
        if u > 0 then fmtInt ('h' :: buf) u else buf
      else buf
  ⟨if d < 0 then '-' :: body else body⟩

end time

/-- Wrap-around of a Go `int64` after an arithmetic step. -/
def int64 (x : Int) : Int := (x + 2 ^ 63) % 2 ^ 64 - 2 ^ 63

/-- Go map assignment `m[k] = v` on a map kept as a list of entries with distinct keys. -/
def mapAssign {V : Type} : List (String × V) → String → V → List (String × V)
  | [], k, v => [(k, v)]
  | (k0, v0) :: rest, k, v =>
    if k0 = k then (k, v) :: rest else (k0, v0) :: mapAssign rest k v

/-! ## Data model -/

/-- Go `CheckResult`. -/
structure CheckResult where
  Name : String
  Status : String
  Message : String
  Time : String
deriving DecidableEq, Repr

/-- The fields of `github.CommitFile` read by the bot (`GetFilename`, `GetAdditions`). -/
structure CommitFile where
  Filename : String
  Additions : Int
deriving DecidableEq, Repr

/-- The fields of `github.PullRequestReview` read by the bot (`GetUser().GetLogin()`,
`GetState`). -/
structure PullRequestReview where
  User : String
  State : String
deriving DecidableEq, Repr

/-- The fields of `github.PullRequest` read by the bot (`GetNumber`, `GetHead().GetSHA()`). -/
structure PullRequest where
  Number : Int
  HeadSHA : String
deriving DecidableEq, Repr

/-- Go `Config`. -/
structure Config where
  GitHubToken : String
  WebhookSecret : String
  Port : String
  MinReviewers : Int
  RequiredChecks : List String
deriving DecidableEq, Repr

/-- Go `StatsCollector` (the mutex is left out: one handler runs at a time here). -/
structure StatsCollector where
  PRProcessingTimes : List (String × time.Duration)
  CheckRunTimes : List (String × time.Duration)
  TotalPRsProcessed : Int
  TotalChecksRun : Int
deriving DecidableEq, Repr

/-- What a run observes from outside the bot: the outcome of the `n`-th
`PullRequests.ListFiles` call, the wall-clock time measured around the `n`-th check,
and the library function `unicode.ToLower`. -/
structure Env where
  ListFiles : Nat → Except String (List CommitFile)
  checkTime : Nat → time.Duration
  lower : Char → Char

/-- The state threaded through `runAutomatedChecks`: how many `ListFiles` calls were
issued, how many checks were timed, and the shared statistics. -/
structure RunState where
  apiCalls : Nat
  clockReads : Nat
  stats : StatsCollector
deriving DecidableEq, Repr

/-! ## Check runners -/

/-- The loop of `runTestCheck` that computes `hasTests` (it breaks at the first match). -/
def runTestCheck.hasTests : List CommitFile → Bool
  | [] => false
  | file :: rest =>
    if strings.Contains file.Filename "_test.go" || strings.Contains file.Filename ".test." then
      true
    else runTestCheck.hasTests rest

/-- Go `runTestCheck`, given the outcome of its `ListFiles` call. -/
def runTestCheck (files : Except String (List CommitFile)) : CheckResult :=
  match files with
  | .error err =>
    { Name := "test", Status := "error", Message := "Failed to get PR files: " ++ err, Time := "" }
  | .ok files =>
    if !runTestCheck.hasTests files then
      { Name := "test", Status := "warning", Message := "No test files found in this PR",
        Time := "" }
    else
      { Name := "test", Status := "success", Message := "All tests passed", Time := "" }

/-- The loop of `runLintCheck` that accumulates `issues`. -/
def runLintCheck.issues : List CommitFile → Nat → Nat
  | [], issues => issues
  | file :: rest, issues =>
    if strings.HasSuffix file.Filename ".go" then
      if file.Additions > 100 then runLintCheck.issues rest (issues + 1)
      else runLintCheck.issues rest issues
    else runLintCheck.issues rest issues

/-- Go `runLintCheck`, given the outcome of its `ListFiles` call. -/
def runLintCheck (files : Except String (List CommitFile)) : CheckResult :=
  match files with
  | .error err =>
    { Name := "lint", Status := "error", Message := "Failed to get PR files: " ++ err, Time := "" }
  | .ok files =>
    let issues := runLintCheck.issues files 0
    if issues > 0 then
      { Name := "lint", Status := "warning",
        Message := "Found " ++ fmt.d issues ++ " potential linting issues", Time := "" }
    else
      { Name := "lint", Status := "success", Message := "No linting issues found", Time := "" }

/-- The loop of `runBuildCheck` that computes `hasBuildFiles` (it breaks at the first match). -/
def runBuildCheck.hasBuildFiles : List CommitFile → Bool
  | [] => false
  | file :: rest =>
    if strings.Contains file.Filename "Dockerfile" || strings.Contains file.Filename "go.mod" ||
        strings.Contains file.Filename "Makefile" then
      true
    else runBuildCheck.hasBuildFiles rest

/-- Go `runBuildCheck`, given the outcome of its `ListFiles` call. -/
def runBuildCheck (files : Except String (List CommitFile)) : CheckResult :=
  match files with
  | .error err =>
    { Name := "build", Status := "error", Message := "Failed to get PR files: " ++ err, Time := "" }
  | .ok files =>
    if !runBuildCheck.hasBuildFiles files then
      { Name := "build", Status := "success", Message := "No build configuration changes",
        Time := "" }
    else
      { Name := "build", Status := "success", Message := "Build check passed", Time := "" }

/-- The test of `runSecurityCheck` on one file name, after lowering it. -/
def runSecurityCheck.flagged (lower : Char → Char) (file : CommitFile) : Bool :=
  let filename := strings.ToLower lower file.Filename
  strings.Contains filename "password" || strings.Contains filename "secret" ||
    strings.Contains filename "token"

/-- The loop of `runSecurityCheck` that accumulates `securityIssues`. -/
def runSecurityCheck.securityIssues (lower : Char → Char) : List CommitFile → Nat → Nat
  | [], securityIssues => securityIssues
  | file :: rest, securityIssues =>
    if runSecurityCheck.flagged lower file then
      runSecurityCheck.securityIssues lower rest (securityIssues + 1)
    else runSecurityCheck.securityIssues lower rest securityIssues

/-- Go `runSecurityCheck`, given the outcome of its `ListFiles` call. -/
def runSecurityCheck (lower : Char → Char) (files : Except String (List CommitFile)) :
    CheckResult :=
  match files with
  | .error err =>
    { Name := "security", Status := "error", Message := "Failed to get PR files: " ++ err,
      Time := "" }
  | .ok files =>
    let securityIssues := runSecurityCheck.securityIssues lower files 0
    if securityIssues > 0 then
      { Name := "security", Status := "failure",
        Message := "Potential security issues found in " ++ fmt.d securityIssues ++ " files",
        Time := "" }
    else
      { Name := "security", Status := "success", Message := "No security issues detected",
        Time := "" }

/-! ## Check orchestration -/

/-- Go `runSpecificCheck`: the result, and the number of `ListFiles` calls issued so far.
A recognised name issues exactly one call; the default case issues none. -/
def runSpecificCheck (env : Env) (apiCalls : Nat) (checkName : String) : CheckResult × Nat :=
  if checkName = "test" then (runTestCheck (env.ListFiles apiCalls), apiCalls + 1)
  else if checkName = "lint" then (runLintCheck (env.ListFiles apiCalls), apiCalls + 1)
  else if checkName = "build" then (runBuildCheck (env.ListFiles apiCalls), apiCalls + 1)
  else if checkName = "security" then
    (runSecurityCheck env.lower (env.ListFiles apiCalls), apiCalls + 1)
  else
    ({ Name := checkName, Status := "skipped", Message := "Unknown check: " ++ checkName,
       Time := "" }, apiCalls)

/-- The `for` loop of `runAutomatedChecks` over the remaining check names, with the
slice `checks` built so far. -/
def runAutomatedChecks.loop (env : Env) :
    List String → List CheckResult → RunState → List CheckResult × RunState
  | [], checks, st => (checks, st)
  | checkName :: rest, checks, st =>
    let r := runSpecificCheck env st.apiCalls checkName
    let checkTime := env.checkTime st.clockReads
    let result := { r.1 with Time := time.Duration.String checkTime }
    let stats := { st.stats with
      CheckRunTimes := mapAssign st.stats.CheckRunTimes checkName checkTime
      TotalChecksRun := int64 (st.stats.TotalChecksRun + 1) }
    runAutomatedChecks.loop env rest (checks ++ [result])
      { apiCalls := r.2, clockReads := st.clockReads + 1, stats := stats }

/-- Go `runAutomatedChecks`. -/
def runAutomatedChecks (env : Env) (config : Config) (st : RunState) :
    List CheckResult × RunState :=
  runAutomatedChecks.loop env config.RequiredChecks [] st

/-! ## Merge policy -/

/-- The loop of `checkMergePolicy` that accumulates `approvals`. -/
def checkMergePolicy.approvals : List PullRequestReview → Nat → Nat
  | [], approvals => approvals
  | review :: rest, approvals =>
    if review.State = "APPROVED" then checkMergePolicy.approvals rest (approvals + 1)
    else checkMergePolicy.approvals rest approvals

/-- Go `checkMergePolicy`, given the outcome of `PullRequests.ListReviews` and the outcome
that `PullRequests.Get` has when the function reaches that call. -/
def checkMergePolicy (config : Config) (reviews : Except String (List PullRequestReview))
    (pr : Except String PullRequest) : Bool × String :=
  match reviews with
  | .error err => (false, "Failed to get reviews: " ++ err)
  | .ok reviews =>
    let approvals := checkMergePolicy.approvals reviews 0
    if (approvals : Int) < config.MinReviewers then
      (false, "Need " ++ fmt.d config.MinReviewers ++ " approvals, have " ++ fmt.d approvals)
    else
      match pr with
      | .error err => (false, "Failed to get PR: " ++ err)
      | .ok pr =>
        if pr.HeadSHA = "" then (false, "No SHA available for status checks")
        else (true, "All merge policies satisfied")

/-! ## Status derivation and publication (`updatePRStatus`) -/

/-- The loop of `updatePRStatus` that computes `allPassed`: it stops at the first
check whose status is `"failure"`. -/
def updatePRStatus.allPassed : List CheckResult → Bool
  | [] => true
  | check :: rest =>
    if check.Status = "failure" then false else updatePRStatus.allPassed rest

/-- The values of the locals `status` and `description` of `updatePRStatus` once the
`if canMerge` statement has run (lines 382-404). -/
def updatePRStatus.verdict (checks : List CheckResult) (canMerge : Bool) (reason : String) :
    String × String :=
  if canMerge then
    if updatePRStatus.allPassed checks then
      ("success", "All checks passed - ready to merge")
    else
      ("failure", "Some checks failed")
  else
    ("pending", reason)

/-- The status marker chosen by the `switch` of `generateCommentBody`; the literals are
the code points of the source file. -/
def generateCommentBody.emoji (status : String) : String :=
  if status = "failure" then "\u00e2\u0152"
  else if status = "warning" then "\u00e2\u0161\u00a0\u00ef\u00b8"
  else if status = "error" then "\u00f0\u0178\u201d\u00b4"
  else if status = "skipped" then "\u00e2\u00ad\u00ef\u00b8"
  else "\u00e2\u0153\u2026"

/-- The line written for one check: `fmt.Sprintf("- %s **%s**: %s (%s)\n", ...)`. -/
def generateCommentBody.line (check : CheckResult) : String :=
  "- " ++ generateCommentBody.emoji check.Status ++ " **" ++ check.Name ++ "**: " ++
    check.Message ++ " (" ++ check.Time ++ ")\n"

/-- The `for` loop of `generateCommentBody`, writing to the builder `comment`. -/
def generateCommentBody.loop : List CheckResult → String → String
  | [], comment => comment
  | check :: rest, comment =>
    generateCommentBody.loop rest (comment ++ generateCommentBody.line check)

/-- Go `generateCommentBody`. -/
def generateCommentBody (checks : List CheckResult) (canMerge : Bool) (reason : String) :
    String :=
  let comment := ""
  let comment := comment ++ "## \u00f0\u0178\u00a4\u2013 Automated Review Results\n\n"
  let comment := comment ++ "### Check Results:\n"
  let comment := generateCommentBody.loop checks comment
  let comment := comment ++ "\n### Merge Status:\n"
  let comment :=
    if canMerge then
      comment ++ ("\u00e2\u0153\u2026 **Ready to merge** - " ++ reason ++ "\n")
    else
      comment ++ ("\u00e2\u00b3 **Not ready to merge** - " ++ reason ++ "\n")
  comment ++ "\n---\n*This comment was generated automatically by the Review Bot*"

/-- What `updatePRStatus` does to the outside: log lines and the two publications. -/
inductive Effect where
  | logPrintf (msg : String)
  | CreateStatus (sha state description context : String)
  | CreateComment (body : String)
deriving DecidableEq, Repr

/-- Go `updatePRStatus`, given the outcome of `PullRequests.Get` and the errors, if any,
returned by `Repositories.CreateStatus` and `Issues.CreateComment`. -/
def updatePRStatus (pr : Except String PullRequest) (statusErr commentErr : Option String)
    (checks : List CheckResult) (canMerge : Bool) (reason : String) : List Effect :=
  let v := updatePRStatus.verdict checks canMerge reason
  match pr with
  | .error err => [Effect.logPrintf ("Failed to get PR for status update: " ++ err)]
  | .ok pr =>
    let e1 := [Effect.CreateStatus pr.HeadSHA v.1 v.2 "ci/review-bot"]
    let e2 := match statusErr with
      | some err => [Effect.logPrintf ("Failed to create status: " ++ err)]
      | none => []
    let e3 := [Effect.CreateComment (generateCommentBody checks canMerge reason)]
    let e4 := match commentErr with
      | some err => [Effect.logPrintf ("Failed to create comment: " ++ err)]
      | none => []
    e1 ++ e2 ++ e3 ++ e4

/-! ## Statistics -/

/-- The loop of `calculateAverageProcessingTime` that accumulates `total` (an `int64`). -/
def calculateAverageProcessingTime.total :
    List (String × time.Duration) → time.Duration → time.Duration
  | [], total => total
  | (_, duration) :: rest, total =>
    calculateAverageProcessingTime.total rest (int64 (total + duration))

/-- Go `calculateAverageProcessingTime`; the division truncates toward zero. -/
def calculateAverageProcessingTime (stats : StatsCollector) : String :=
  if stats.PRProcessingTimes.length = 0 then "0s"
  else
    let total := calculateAverageProcessingTime.total stats.PRProcessingTimes 0
    let average := Int.tdiv total stats.PRProcessingTimes.length
    time.Duration.String average

/-! ## The naming convention of the specification -/

/-- The test-file naming convention as the specification words it, a suffix pattern: the
name ends in "_test.go", or in ".test.<extension>" for a non-empty extension without a dot
or a slash. -/
def specTestFileSuffix (name : String) : Prop :=
  "_test.go".data <:+ name.data ∨
    ∃ ext : List Char, ext ≠ [] ∧ '.' ∉ ext ∧ '/' ∉ ext ∧ (".test.".data ++ ext) <:+ name.data

/-! ## Properties -/

/-! ### Status derivation -/

theorem updatePRStatus.allPassed_iff (checks : List CheckResult) :
    updatePRStatus.allPassed checks = true ↔ ∀ c ∈ checks, c.Status ≠ "failure" := by
  induction checks with
  | nil => simp [updatePRStatus.allPassed]
  | cons check rest ih =>
    by_cases h : check.Status = "failure"
    · simp [updatePRStatus.allPassed, h]
    · simp [updatePRStatus.allPassed, h, ih]

/-- C1: when the merge decision is allowed, the status derived by `updatePRStatus` is
"failure" exactly when some check result has status "failure", is "success" exactly when
none has (so the empty list gives "success"), and is never "pending". -/
theorem updatePRStatus_verdict_allowed (checks : List CheckResult) (reason : String) :
    ((updatePRStatus.verdict checks true reason).1 = "failure" ↔
        ∃ c ∈ checks, c.Status = "failure") ∧
      ((updatePRStatus.verdict checks true reason).1 = "success" ↔
        ∀ c ∈ checks, c.Status ≠ "failure") ∧
      (updatePRStatus.verdict checks true reason).1 ≠ "pending" ∧
      (updatePRStatus.verdict [] true reason).1 = "success" ∧
      ∀ (pr : PullRequest) (statusErr commentErr : Option String),
        (updatePRStatus (.ok pr) statusErr commentErr checks true reason).head? =
          some (Effect.CreateStatus pr.HeadSHA (updatePRStatus.verdict checks true reason).1
            (updatePRStatus.verdict checks true reason).2 "ci/review-bot") := by
  have key := updatePRStatus.allPassed_iff checks
  have hpub : ∀ (pr : PullRequest) (statusErr commentErr : Option String),
      (updatePRStatus (.ok pr) statusErr commentErr checks true reason).head? =
        some (Effect.CreateStatus pr.HeadSHA (updatePRStatus.verdict checks true reason).1
          (updatePRStatus.verdict checks true reason).2 "ci/review-bot") := by
    intro pr statusErr commentErr
    simp [updatePRStatus]
  by_cases h : updatePRStatus.allPassed checks = true
  · have hall := key.mp h
    have hv : (updatePRStatus.verdict checks true reason).1 = "success" := by
      simp [updatePRStatus.verdict, h]
    refine ⟨⟨fun hc => ?_, ?_⟩, ⟨fun _ => hall, fun _ => hv⟩, ?_, rfl, hpub⟩
    · rw [hv] at hc
      exact absurd hc (by decide)
    · rintro ⟨c, hc, hs⟩
      exact absurd hs (hall c hc)
    · rw [hv]
      decide
  · have hex : ∃ c ∈ checks, c.Status = "failure" := by
      by_contra hne
      apply h
      apply key.mpr
      intro c hc hs
      exact hne ⟨c, hc, hs⟩
    have hv : (updatePRStatus.verdict checks true reason).1 = "failure" := by
      simp [updatePRStatus.verdict, h]
    refine ⟨⟨fun _ => hex, fun _ => hv⟩, ⟨fun hc => ?_, ?_⟩, ?_, rfl, hpub⟩
    · rw [hv] at hc
      exact absurd hc (by decide)
    · intro hall
      obtain ⟨c, hc, hs⟩ := hex
      exact absurd hs (hall c hc)
    · rw [hv]
      decide

/-- C2: when the merge decision is not allowed, the status derived by `updatePRStatus` is
"pending" and the description is the decision's reason, whatever the check results are. -/
theorem updatePRStatus_verdict_not_allowed (checks : List CheckResult) (reason : String) :
    updatePRStatus.verdict checks false reason = ("pending", reason) ∧
      (∀ other : List CheckResult,
        updatePRStatus.verdict other false reason =
          updatePRStatus.verdict checks false reason) ∧
      ∀ (pr : PullRequest) (statusErr commentErr : Option String),
        (updatePRStatus (.ok pr) statusErr commentErr checks false reason).head? =
          some (Effect.CreateStatus pr.HeadSHA "pending" reason "ci/review-bot") := by
  refine ⟨?_, ?_, ?_⟩
  · simp [updatePRStatus.verdict]
  · intro other
    simp [updatePRStatus.verdict]
  · intro pr statusErr commentErr
    simp [updatePRStatus, updatePRStatus.verdict]

/-! ### Merge policy -/

theorem checkMergePolicy.approvals_eq (reviews : List PullRequestReview) (n : Nat) :
    checkMergePolicy.approvals reviews n =
      n + reviews.countP (fun r => r.State = "APPROVED") := by
  induction reviews generalizing n with
  | nil => simp [checkMergePolicy.approvals]
  | cons review rest ih =>
    by_cases h : review.State = "APPROVED"
    · simp [checkMergePolicy.approvals, h, ih]
      omega
    · simp [checkMergePolicy.approvals, h, ih]

/-- C3: `checkMergePolicy` allows the merge exactly when the review fetch succeeds, the
number of review records in state "APPROVED" (one per record, whoever the reviewer is) is
at least `MinReviewers`, the pull-request fetch succeeds and the head commit identifier is
not empty.  With exactly `MinReviewers - 1` approved records the merge is refused, and a
fetch failure gives a refusal whose reason embeds the failure. -/
theorem checkMergePolicy_allowed_iff (config : Config)
    (reviews : Except String (List PullRequestReview)) (pr : Except String PullRequest) :
    ((checkMergePolicy config reviews pr).1 = true ↔
        ∃ rs p, reviews = .ok rs ∧
          config.MinReviewers ≤ (rs.countP (fun r => r.State = "APPROVED") : Int) ∧
          pr = .ok p ∧ p.HeadSHA ≠ "") ∧
      (∀ rs : List PullRequestReview,
        (rs.countP (fun r => r.State = "APPROVED") : Int) = config.MinReviewers - 1 →
          (checkMergePolicy config (.ok rs) pr).1 = false) ∧
      (∀ err : String,
        checkMergePolicy config (.error err) pr = (false, "Failed to get reviews: " ++ err)) ∧
      (∀ (rs : List PullRequestReview) (err : String),
        config.MinReviewers ≤ (rs.countP (fun r => r.State = "APPROVED") : Int) →
          checkMergePolicy config (.ok rs) (.error err) = (false, "Failed to get PR: " ++ err)) := by
  refine ⟨?_, ?_, ?_, ?_⟩
  · cases reviews with
    | error e => simp [checkMergePolicy]
    | ok rs =>
      by_cases hlt : (rs.countP (fun r => r.State = "APPROVED") : Int) < config.MinReviewers
      · simp [checkMergePolicy, checkMergePolicy.approvals_eq, hlt]
      · cases pr with
        | error e => simp [checkMergePolicy, checkMergePolicy.approvals_eq, hlt]
        | ok p =>
          by_cases hs : p.HeadSHA = ""
          · simp [checkMergePolicy, checkMergePolicy.approvals_eq, hlt, hs]
          · simp [checkMergePolicy, checkMergePolicy.approvals_eq, hlt, hs]
            omega
  · intro rs h
    have hlt : (rs.countP (fun r => r.State = "APPROVED") : Int) < config.MinReviewers := by
      omega
    simp [checkMergePolicy, checkMergePolicy.approvals_eq, hlt]
  · intro err
    simp [checkMergePolicy]
  · intro rs err h
    have hlt : ¬ (rs.countP (fun r => r.State = "APPROVED") : Int) < config.MinReviewers := by
      omega
    simp [checkMergePolicy, checkMergePolicy.approvals_eq, hlt]

/-- Witness for C3 with `MinReviewers = 2`: two approvals by the same reviewer are enough,
one approval is refused, and a failing pull-request fetch is reported in the reason. -/
theorem checkMergePolicy_allowed_iff_witness :
    (checkMergePolicy ⟨"t", "s", "8080", 2, ["test", "lint", "build"]⟩
        (.ok [⟨"alice", "APPROVED"⟩, ⟨"alice", "APPROVED"⟩]) (.ok ⟨7, "abc123"⟩)).1 = true ∧
      (checkMergePolicy ⟨"t", "s", "8080", 2, ["test", "lint", "build"]⟩
        (.ok [⟨"alice", "APPROVED"⟩, ⟨"bob", "COMMENTED"⟩]) (.ok ⟨7, "abc123"⟩)).1 = false ∧
      checkMergePolicy ⟨"t", "s", "8080", 2, ["test", "lint", "build"]⟩
        (.ok [⟨"alice", "APPROVED"⟩, ⟨"alice", "APPROVED"⟩]) (.error "404 Not Found") =
          (false, "Failed to get PR: 404 Not Found") :=
  ⟨(checkMergePolicy_allowed_iff ⟨"t", "s", "8080", 2, ["test", "lint", "build"]⟩
      (.ok [⟨"alice", "APPROVED"⟩, ⟨"alice", "APPROVED"⟩]) (.ok ⟨7, "abc123"⟩)).1.mpr
      ⟨_, _, rfl, by decide, rfl, by decide⟩,
    (checkMergePolicy_allowed_iff ⟨"t", "s", "8080", 2, ["test", "lint", "build"]⟩
      (.ok []) (.ok ⟨7, "abc123"⟩)).2.1
      [⟨"alice", "APPROVED"⟩, ⟨"bob", "COMMENTED"⟩] (by decide),
    (checkMergePolicy_allowed_iff ⟨"t", "s", "8080", 2, ["test", "lint", "build"]⟩
      (.ok []) (.ok ⟨7, "abc123"⟩)).2.2.2
      [⟨"alice", "APPROVED"⟩, ⟨"alice", "APPROVED"⟩] "404 Not Found" (by decide)⟩

/-! ### Check orchestration -/

theorem runTestCheck_Name (files : Except String (List CommitFile)) :
    (runTestCheck files).Name = "test" := by
  unfold runTestCheck
  split
  · rfl
  · split <;> rfl

theorem runLintCheck_Name (files : Except String (List CommitFile)) :
    (runLintCheck files).Name = "lint" := by
  unfold runLintCheck
  split
  · rfl
  · dsimp only
    split <;> rfl

theorem runBuildCheck_Name (files : Except String (List CommitFile)) :
    (runBuildCheck files).Name = "build" := by
  unfold runBuildCheck
  split
  · rfl
  · split <;> rfl

theorem runSecurityCheck_Name (lower : Char → Char) (files : Except String (List CommitFile)) :
    (runSecurityCheck lower files).Name = "security" := by
  unfold runSecurityCheck
  split
  · rfl
  · dsimp only
    split <;> rfl

theorem runSpecificCheck_Name (env : Env) (apiCalls : Nat) (checkName : String) :
    (runSpecificCheck env apiCalls checkName).1.Name = checkName := by
  unfold runSpecificCheck
  split
  · rename_i h
    rw [h]
    exact runTestCheck_Name _
  · split
    · rename_i h
      rw [h]
      exact runLintCheck_Name _
    · split
      · rename_i h
        rw [h]
        exact runBuildCheck_Name _
      · split
        · rename_i h
          rw [h]
          exact runSecurityCheck_Name _ _
        · rfl

theorem runAutomatedChecks.loop_Names (env : Env) (names : List String)
    (checks : List CheckResult) (st : RunState) :
    (runAutomatedChecks.loop env names checks st).1.map CheckResult.Name =
      checks.map CheckResult.Name ++ names := by
  induction names generalizing checks st with
  | nil => simp [runAutomatedChecks.loop]
  | cons checkName rest ih =>
    simp only [runAutomatedChecks.loop]
    rw [ih]
    simp [runSpecificCheck_Name]

theorem runAutomatedChecks.loop_acc (env : Env) (names : List String)
    (checks : List CheckResult) (st : RunState) :
    runAutomatedChecks.loop env names checks st =
      (checks ++ (runAutomatedChecks.loop env names [] st).1,
        (runAutomatedChecks.loop env names [] st).2) := by
  induction names generalizing checks st with
  | nil => simp [runAutomatedChecks.loop]
  | cons checkName rest ih =>
    simp only [runAutomatedChecks.loop]
    rw [ih]
    conv_rhs => rw [ih]
    simp

theorem runAutomatedChecks.loop_append (env : Env) (xs ys : List String)
    (checks : List CheckResult) (st : RunState) :
    runAutomatedChecks.loop env (xs ++ ys) checks st =
      runAutomatedChecks.loop env ys (runAutomatedChecks.loop env xs checks st).1
        (runAutomatedChecks.loop env xs checks st).2 := by
  induction xs generalizing checks st with
  | nil => simp [runAutomatedChecks.loop]
  | cons checkName rest ih =>
    simp only [List.cons_append, runAutomatedChecks.loop]
    exact ih _ _

/-- C4: `runAutomatedChecks` returns one result per configured check name, in the
configured order, whatever the names are and whatever each file fetch returns: the names
of the results are exactly the configured list, so the lengths agree as well. -/
theorem runAutomatedChecks_Names (env : Env) (config : Config) (st : RunState) :
    (runAutomatedChecks env config st).1.map CheckResult.Name = config.RequiredChecks ∧
      (runAutomatedChecks env config st).1.length = config.RequiredChecks.length := by
  have h : (runAutomatedChecks env config st).1.map CheckResult.Name =
      config.RequiredChecks := by
    unfold runAutomatedChecks
    rw [runAutomatedChecks.loop_Names]
    simp
  refine ⟨h, ?_⟩
  have hl := congrArg List.length h
  simpa using hl

theorem runSpecificCheck_default (env : Env) (apiCalls : Nat) (checkName : String)
    (h : checkName ∉ ["test", "lint", "build", "security"]) :
    runSpecificCheck env apiCalls checkName =
      ({ Name := checkName, Status := "skipped", Message := "Unknown check: " ++ checkName,
         Time := "" }, apiCalls) := by
  simp only [List.mem_cons, List.mem_singleton, List.not_mem_nil, or_false, not_or] at h
  obtain ⟨h1, h2, h3, h4⟩ := h
  simp [runSpecificCheck, h1, h2, h3, h4]

/-- C5: a check name other than "test", "lint", "build" and "security" makes
`runSpecificCheck` return a "skipped" result carrying that name, with the message
"Unknown check: <name>", and issues no file fetch (the call counter is unchanged).  In
`runAutomatedChecks` the names configured after it are still run: the output is the
results of the names before it, the skipped result, and then the results that the names
after it produce when run from the state reached. -/
theorem runSpecificCheck_unknown_skipped (env : Env) (apiCalls : Nat) (checkName : String)
    (h : checkName ∉ ["test", "lint", "build", "security"]) :
    runSpecificCheck env apiCalls checkName =
        ({ Name := checkName, Status := "skipped", Message := "Unknown check: " ++ checkName,
           Time := "" }, apiCalls) ∧
      ∀ (config : Config) (before after : List String) (st : RunState),
        config.RequiredChecks = before ++ checkName :: after →
        let r := runAutomatedChecks env { config with RequiredChecks := before } st
        let checkTime := env.checkTime r.2.clockReads
        let skipped : CheckResult :=
          { Name := checkName, Status := "skipped", Message := "Unknown check: " ++ checkName,
            Time := time.Duration.String checkTime }
        let next : RunState :=
          { apiCalls := r.2.apiCalls, clockReads := r.2.clockReads + 1,
            stats := { r.2.stats with
              CheckRunTimes := mapAssign r.2.stats.CheckRunTimes checkName checkTime
              TotalChecksRun := int64 (r.2.stats.TotalChecksRun + 1) } }
        let tail := runAutomatedChecks env { config with RequiredChecks := after } next
        runAutomatedChecks env config st = (r.1 ++ skipped :: tail.1, tail.2) ∧
          tail.1.map CheckResult.Name = after := by
  refine ⟨runSpecificCheck_default env apiCalls checkName h, ?_⟩
  intro config before after st hcfg
  intro r checkTime skipped next tail
  refine ⟨?_, (runAutomatedChecks_Names env { config with RequiredChecks := after } next).1⟩
  have hr : r = runAutomatedChecks.loop env before [] st := rfl
  have ht : tail = runAutomatedChecks.loop env after [] next := rfl
  unfold runAutomatedChecks
  rw [hcfg, runAutomatedChecks.loop_append, ← hr]
  simp only [runAutomatedChecks.loop]
  rw [runSpecificCheck_default env r.2.apiCalls checkName h, runAutomatedChecks.loop_acc, ← ht]
  simp [skipped, checkTime]

/-- Witness for C5 with the name "unknown" configured between "test" and "lint": the
lint check still runs and its result follows the skipped one. -/
theorem runSpecificCheck_unknown_skipped_witness :
    "unknown" ∉ ["test", "lint", "build", "security"] ∧
      runSpecificCheck ⟨fun _ => .ok [], fun _ => 0, id⟩ 0 "unknown" =
        ({ Name := "unknown", Status := "skipped", Message := "Unknown check: unknown",
           Time := "" }, 0) ∧
      (runAutomatedChecks ⟨fun _ => .ok [], fun _ => 0, id⟩
        ⟨"t", "s", "8080", 2, ["test", "unknown", "lint"]⟩ ⟨0, 0, ⟨[], [], 0, 0⟩⟩).1 =
        [⟨"test", "warning", "No test files found in this PR", "0s"⟩,
          ⟨"unknown", "skipped", "Unknown check: unknown", "0s"⟩,
          ⟨"lint", "success", "No linting issues found", "0s"⟩] :=
  ⟨by decide,
    (runSpecificCheck_unknown_skipped ⟨fun _ => .ok [], fun _ => 0, id⟩ 0 "unknown"
      (by decide)).1,
    (congrArg Prod.fst
      (((runSpecificCheck_unknown_skipped ⟨fun _ => .ok [], fun _ => 0, id⟩ 0 "unknown"
        (by decide)).2 ⟨"t", "s", "8080", 2, ["test", "unknown", "lint"]⟩ ["test"] ["lint"]
        ⟨0, 0, ⟨[], [], 0, 0⟩⟩ rfl).1)).trans (by decide)⟩

/-! ### Substring tests -/

theorem strings.Contains_iff (s substr : String) :
    strings.Contains s substr = true ↔ substr.data <:+: s.data := by
  unfold strings.Contains
  rw [List.any_eq_true, List.infix_iff_prefix_suffix]
  constructor
  · rintro ⟨t, ht, hp⟩
    exact ⟨t, List.isPrefixOf_iff_prefix.mp hp, (List.mem_tails _ _).mp ht⟩
  · rintro ⟨t, hp, ht⟩
    exact ⟨t, (List.mem_tails _ _).mpr ht, List.isPrefixOf_iff_prefix.mpr hp⟩

theorem strings.HasSuffix_iff (s suffix : String) :
    strings.HasSuffix s suffix = true ↔ suffix.data <:+ s.data := by
  unfold strings.HasSuffix
  exact List.isSuffixOf_iff_suffix

theorem strings.Contains_append_left (a b substr : String)
    (h : strings.Contains a substr = true) : strings.Contains (a ++ b) substr = true := by
  rw [strings.Contains_iff] at h ⊢
  rw [String.data_append]
  exact h.trans (List.infix_append' [] a.data b.data)

theorem strings.Contains_append_right (a b substr : String)
    (h : strings.Contains b substr = true) : strings.Contains (a ++ b) substr = true := by
  rw [strings.Contains_iff] at h ⊢
  rw [String.data_append]
  exact h.trans (List.suffix_append a.data b.data).isInfix

theorem strings.HasSuffix_append (a b : String) : strings.HasSuffix (a ++ b) b = true := by
  rw [strings.HasSuffix_iff, String.data_append]
  exact List.suffix_append a.data b.data

/-! ### Comment rendering -/

theorem generateCommentBody.loop_eq (checks : List CheckResult) (comment : String) :
    generateCommentBody.loop checks comment =
      comment ++ generateCommentBody.loop checks "" := by
  induction checks generalizing comment with
  | nil => simp [generateCommentBody.loop]
  | cons check rest ih =>
    simp only [generateCommentBody.loop]
    rw [ih, ih ("" ++ _)]
    simp [String.append_assoc]

theorem generateCommentBody_split (checks : List CheckResult) (canMerge : Bool)
    (reason : String) :
    generateCommentBody checks canMerge reason =
      generateCommentBody.loop checks
          "## \u00f0\u0178\u00a4\u2013 Automated Review Results\n\n### Check Results:\n" ++
        ("\n### Merge Status:\n" ++
          ((if canMerge then "\u00e2\u0153\u2026 **Ready to merge** - "
            else "\u00e2\u00b3 **Not ready to merge** - ") ++
          (reason ++ ("\n" ++
          "\n---\n*This comment was generated automatically by the Review Bot*")))) := by
  cases canMerge
  · simp only [generateCommentBody, Bool.false_eq_true, if_false, String.append_assoc]
    rfl
  · simp only [generateCommentBody, if_true, String.append_assoc]
    rfl

set_option maxRecDepth 100000 in
/-- C6, as stated, fails: for the three checks of the example (one of them a failure) and
`canMerge = true` the derived status is "failure", yet the comment contains
"Ready to merge" and does not contain "Not ready to merge". -/
theorem generateCommentBody_failure_still_ready :
    (∃ c ∈ ([⟨"test", "success", "All tests passed", "100ms"⟩,
          ⟨"lint", "warning", "Minor issues found", "50ms"⟩,
          ⟨"build", "failure", "Build failed", "200ms"⟩] : List CheckResult),
        c.Status = "failure") ∧
      (updatePRStatus.verdict [⟨"test", "success", "All tests passed", "100ms"⟩,
            ⟨"lint", "warning", "Minor issues found", "50ms"⟩,
            ⟨"build", "failure", "Build failed", "200ms"⟩] true "All policies satisfied").1 = "failure" ∧
      strings.Contains
        (generateCommentBody [⟨"test", "success", "All tests passed", "100ms"⟩,
            ⟨"lint", "warning", "Minor issues found", "50ms"⟩,
            ⟨"build", "failure", "Build failed", "200ms"⟩] true "All policies satisfied") "Ready to merge" = true ∧
      strings.Contains
        (generateCommentBody [⟨"test", "success", "All tests passed", "100ms"⟩,
            ⟨"lint", "warning", "Minor issues found", "50ms"⟩,
            ⟨"build", "failure", "Build failed", "200ms"⟩] true "All policies satisfied") "Not ready to merge" = false := by
  refine ⟨⟨⟨"build", "failure", "Build failed", "200ms"⟩, by simp, rfl⟩, ?_, ?_, ?_⟩ <;> decide

/-- C6, amended: the merge-verdict line of `generateCommentBody` is chosen by `canMerge`
alone.  The comment is the rendered check lines, the "Merge Status" heading, the
"Ready to merge" line when `canMerge` is true and the "Not ready to merge" line when it is
false, each followed by the reason, and the footer; the statuses of the checks, failures
included, play no part in the choice. -/
theorem generateCommentBody_verdict_line (checks : List CheckResult) (canMerge : Bool)
    (reason : String) :
    generateCommentBody checks canMerge reason =
        generateCommentBody.loop checks
            "## \u00f0\u0178\u00a4\u2013 Automated Review Results\n\n### Check Results:\n" ++
          ("\n### Merge Status:\n" ++
            ((if canMerge then "\u00e2\u0153\u2026 **Ready to merge** - "
              else "\u00e2\u00b3 **Not ready to merge** - ") ++
            (reason ++ ("\n" ++
            "\n---\n*This comment was generated automatically by the Review Bot*")))) ∧
      strings.Contains (generateCommentBody checks true reason)
        "**Ready to merge**" = true ∧
      strings.Contains (generateCommentBody checks false reason)
        "**Not ready to merge**" = true := by
  refine ⟨generateCommentBody_split checks canMerge reason, ?_, ?_⟩
  · rw [generateCommentBody_split]
    apply strings.Contains_append_right
    apply strings.Contains_append_right
    apply strings.Contains_append_left
    decide
  · rw [generateCommentBody_split]
    apply strings.Contains_append_right
    apply strings.Contains_append_right
    apply strings.Contains_append_left
    decide

/-- C7: for every list of check results, failures included, and every reason, the comment
rendered with `canMerge = true` contains the heading "Automated Review Results" and the
text "Ready to merge" followed by the reason; its merge-status section is the same for
all check lists. -/
theorem generateCommentBody_canMerge_ready (checks : List CheckResult) (reason : String) :
    strings.Contains (generateCommentBody checks true reason)
        "Automated Review Results" = true ∧
      strings.Contains (generateCommentBody checks true reason)
        ("Ready to merge** - " ++ reason) = true ∧
      strings.HasSuffix (generateCommentBody checks true reason)
        ("\n### Merge Status:\n" ++ ("\u00e2\u0153\u2026 **Ready to merge** - " ++
          (reason ++ ("\n" ++
          "\n---\n*This comment was generated automatically by the Review Bot*")))) = true := by
  refine ⟨?_, ?_, ?_⟩
  · rw [generateCommentBody_split, generateCommentBody.loop_eq]
    apply strings.Contains_append_left
    apply strings.Contains_append_left
    decide
  · rw [generateCommentBody_split]
    apply strings.Contains_append_right
    apply strings.Contains_append_right
    simp only [if_true]
    have h : "\u00e2\u0153\u2026 **Ready to merge** - " =
        "\u00e2\u0153\u2026 **" ++ "Ready to merge** - " := by decide
    rw [h, String.append_assoc, ← String.append_assoc "Ready to merge** - "]
    apply strings.Contains_append_right
    apply strings.Contains_append_left
    exact (strings.Contains_iff _ _).mpr (List.infix_refl _)
  · rw [generateCommentBody_split]
    simp only [if_true]
    exact strings.HasSuffix_append _ _

/-! ### Check runners -/

theorem infix_map_iff {α β : Type} (f : α → β) (l : List α) (k : List β) :
    k <:+: l.map f ↔ ∃ t : List α, t <:+: l ∧ t.map f = k := by
  constructor
  · rintro ⟨a, b, h⟩
    obtain ⟨l1, l2, hl, h1, -⟩ := List.map_eq_append_iff.mp h.symm
    obtain ⟨l3, l4, hl1, -, h4⟩ := List.map_eq_append_iff.mp h1
    exact ⟨l4, ⟨l3, l2, by rw [hl, hl1]⟩, h4⟩
  · rintro ⟨t, ht, rfl⟩
    exact ht.map f

theorem runSecurityCheck.securityIssues_eq (lower : Char → Char) (files : List CommitFile)
    (n : Nat) :
    runSecurityCheck.securityIssues lower files n =
      n + files.countP (runSecurityCheck.flagged lower) := by
  induction files generalizing n with
  | nil => simp [runSecurityCheck.securityIssues]
  | cons file rest ih =>
    by_cases h : runSecurityCheck.flagged lower file = true
    · simp [runSecurityCheck.securityIssues, h, ih]
      omega
    · simp [runSecurityCheck.securityIssues, h, ih]

theorem runSecurityCheck.flagged_iff (lower : Char → Char) (f : CommitFile) :
    runSecurityCheck.flagged lower f = true ↔
      ∃ kw ∈ ["password", "secret", "token"],
        ∃ t : List Char, t <:+: f.Filename.data ∧ t.map lower = kw.data := by
  have key : ∀ kw : String, strings.Contains (strings.ToLower lower f.Filename) kw = true ↔
      ∃ t : List Char, t <:+: f.Filename.data ∧ t.map lower = kw.data := by
    intro kw
    rw [strings.Contains_iff]
    exact infix_map_iff lower f.Filename.data kw.data
  simp only [runSecurityCheck.flagged, Bool.or_eq_true, key, List.mem_cons, List.mem_singleton,
    List.not_mem_nil, or_false, exists_eq_or_imp, exists_eq_left, or_assoc]

/-- C8: when the file fetch succeeds, `runSecurityCheck` returns "failure" exactly when
some changed file name contains, up to the case mapping, "password", "secret" or "token"
(a block of the name is sent to the keyword by `unicode.ToLower`), and "success"
otherwise; the failure message carries the number of such files, each list entry counted
once however many keywords it contains. -/
theorem runSecurityCheck_counts_flagged (lower : Char → Char) (files : List CommitFile) :
    (∀ f : CommitFile, runSecurityCheck.flagged lower f = true ↔
        ∃ kw ∈ ["password", "secret", "token"],
          ∃ t : List Char, t <:+: f.Filename.data ∧ t.map lower = kw.data) ∧
      ((runSecurityCheck lower (.ok files)).Status = "failure" ↔
        ∃ f ∈ files, runSecurityCheck.flagged lower f = true) ∧
      ((runSecurityCheck lower (.ok files)).Status = "success" ↔
        ∀ f ∈ files, runSecurityCheck.flagged lower f = false) ∧
      runSecurityCheck lower (.ok files) =
        (if 0 < files.countP (runSecurityCheck.flagged lower) then
          { Name := "security", Status := "failure",
            Message := "Potential security issues found in " ++
              fmt.d (files.countP (runSecurityCheck.flagged lower)) ++ " files",
            Time := "" }
        else
          { Name := "security", Status := "success", Message := "No security issues detected",
            Time := "" }) := by
  have heq : runSecurityCheck lower (.ok files) =
      (if 0 < files.countP (runSecurityCheck.flagged lower) then
        { Name := "security", Status := "failure",
          Message := "Potential security issues found in " ++
            fmt.d (files.countP (runSecurityCheck.flagged lower)) ++ " files",
          Time := "" }
      else
        { Name := "security", Status := "success", Message := "No security issues detected",
          Time := "" }) := by
    simp [runSecurityCheck, runSecurityCheck.securityIssues_eq]
  refine ⟨runSecurityCheck.flagged_iff lower, ?_, ?_, heq⟩
  · rw [heq]
    by_cases h : 0 < files.countP (runSecurityCheck.flagged lower)
    · rw [if_pos h]
      simpa using h
    · rw [if_neg h]
      constructor
      · intro hc
        simp at hc
      · intro hex
        exact absurd (List.countP_pos_iff.mpr hex) h
  · rw [heq]
    by_cases h : 0 < files.countP (runSecurityCheck.flagged lower)
    · rw [if_pos h]
      constructor
      · intro hc
        simp at hc
      · intro hall
        obtain ⟨f, hf, hp⟩ := List.countP_pos_iff.mp h
        rw [hall f hf] at hp
        exact absurd hp (by decide)
    · rw [if_neg h]
      constructor
      · intro _ f hf
        by_contra hne
        exact h (List.countP_pos_iff.mpr ⟨f, hf, by simpa using hne⟩)
      · intro _
        rfl

theorem runTestCheck.hasTests_iff (files : List CommitFile) :
    runTestCheck.hasTests files = true ↔
      ∃ f ∈ files, "_test.go".data <:+: f.Filename.data ∨ ".test.".data <:+: f.Filename.data := by
  induction files with
  | nil => simp [runTestCheck.hasTests]
  | cons file rest ih =>
    have hm : (strings.Contains file.Filename "_test.go" ||
        strings.Contains file.Filename ".test.") = true ↔
        ("_test.go".data <:+: file.Filename.data ∨ ".test.".data <:+: file.Filename.data) := by
      rw [Bool.or_eq_true, strings.Contains_iff, strings.Contains_iff]
    unfold runTestCheck.hasTests
    by_cases h : (strings.Contains file.Filename "_test.go" ||
        strings.Contains file.Filename ".test.") = true
    · rw [if_pos h]
      constructor
      · intro _
        exact ⟨file, List.mem_cons_self _ _, hm.mp h⟩
      · intro _
        rfl
    · rw [if_neg h, ih]
      constructor
      · rintro ⟨f, hf, hf2⟩
        exact ⟨f, List.mem_cons_of_mem _ hf, hf2⟩
      · rintro ⟨f, hf, hf2⟩
        rcases List.mem_cons.mp hf with hf1 | hf1
        · rw [hf1] at hf2
          exact absurd (hm.mpr hf2) h
        · exact ⟨f, hf1, hf2⟩

theorem specTestFileSuffix_infix (name : String) (h : specTestFileSuffix name) :
    "_test.go".data <:+: name.data ∨ ".test.".data <:+: name.data := by
  rcases h with h | ⟨ext, -, -, -, h⟩
  · exact Or.inl h.isInfix
  · exact Or.inr ((List.prefix_append _ ext).isInfix.trans h.isInfix)

/-- C9, as stated, fails: the single changed file "docs/foo_test.go.md" does not end in
"_test.go" nor in ".test.<extension>", yet `runTestCheck` returns "success". -/
theorem runTestCheck_not_suffix :
    (runTestCheck (.ok [⟨"docs/foo_test.go.md", 3⟩])).Status = "success" ∧
      ¬ ∃ f ∈ [(⟨"docs/foo_test.go.md", 3⟩ : CommitFile)], specTestFileSuffix f.Filename := by
  refine ⟨by decide, ?_⟩
  rintro ⟨f, hf, h⟩
  rw [List.mem_singleton] at hf
  subst hf
  rcases h with h | ⟨ext, -, -, -, h⟩
  · exact absurd h (by decide)
  · have hin : ".test.".data <:+: "docs/foo_test.go.md".data :=
      (List.prefix_append _ ext).isInfix.trans h.isInfix
    exact absurd ((strings.Contains_iff _ _).mpr hin) (by decide)

/-- C9, amended: when the file fetch succeeds, `runTestCheck` returns "success" exactly
when some changed file name contains "_test.go" or ".test." anywhere in the name, which
every name ending in "_test.go" or in ".test.<extension>" does; when no name contains
either it returns "warning" with the message "No test files found in this PR"; when the
fetch fails it returns "error" with the failure in the message. -/
theorem runTestCheck_substring (files : List CommitFile) :
    ((runTestCheck (.ok files)).Status = "success" ↔
        ∃ f ∈ files,
          "_test.go".data <:+: f.Filename.data ∨ ".test.".data <:+: f.Filename.data) ∧
      (runTestCheck (.ok files) =
          { Name := "test", Status := "warning", Message := "No test files found in this PR",
            Time := "" } ↔
        ¬ ∃ f ∈ files,
          "_test.go".data <:+: f.Filename.data ∨ ".test.".data <:+: f.Filename.data) ∧
      (∀ name : String, specTestFileSuffix name →
        "_test.go".data <:+: name.data ∨ ".test.".data <:+: name.data) ∧
      (∀ err : String, runTestCheck (.error err) =
        { Name := "test", Status := "error", Message := "Failed to get PR files: " ++ err,
          Time := "" }) := by
  have key := runTestCheck.hasTests_iff files
  refine ⟨?_, ?_, specTestFileSuffix_infix, fun err => rfl⟩
  · rw [← key]
    by_cases h : runTestCheck.hasTests files = true
    · simp [runTestCheck, h]
    · simp [runTestCheck, h]
  · rw [← key]
    by_cases h : runTestCheck.hasTests files = true
    · simp [runTestCheck, h]
    · simp [runTestCheck, h]

/-- Witness for the amended C9: "pkg/a_test.go" ends in "_test.go", so it contains it, and
a change consisting of that file passes the test check. -/
theorem runTestCheck_substring_witness :
    specTestFileSuffix "pkg/a_test.go" ∧
      ("_test.go".data <:+: "pkg/a_test.go".data ∨ ".test.".data <:+: "pkg/a_test.go".data) ∧
      (runTestCheck (.ok [⟨"pkg/a_test.go", 12⟩])).Status = "success" :=
  ⟨Or.inl (by decide),
    (runTestCheck_substring [⟨"pkg/a_test.go", 12⟩]).2.2.1 "pkg/a_test.go" (Or.inl (by decide)),
    (runTestCheck_substring [⟨"pkg/a_test.go", 12⟩]).1.mpr
      ⟨⟨"pkg/a_test.go", 12⟩, by simp, Or.inl (by decide)⟩⟩

theorem runLintCheck.issues_eq (files : List CommitFile) (n : Nat) :
    runLintCheck.issues files n =
      n + files.countP
        (fun f => strings.HasSuffix f.Filename ".go" && decide (100 < f.Additions)) := by
  induction files generalizing n with
  | nil => simp [runLintCheck.issues]
  | cons file rest ih =>
    by_cases h1 : strings.HasSuffix file.Filename ".go" = true
    · by_cases h2 : 100 < file.Additions
      · simp [runLintCheck.issues, h1, h2, ih]
        omega
      · simp [runLintCheck.issues, h1, h2, ih]
    · simp [runLintCheck.issues, h1, ih]

/-- C10: when the file fetch succeeds, `runLintCheck` counts the changed Go source files
(names ending in ".go") with more than 100 added lines; it returns "warning" with the
message "Found <count> potential linting issues" when the count is positive and "success"
when it is zero.  A file with exactly 100 added lines does not change the result, while a
Go file with 101 added lines alone gives a warning. -/
theorem runLintCheck_counts_large (files : List CommitFile) :
    runLintCheck (.ok files) =
        (if 0 < files.countP
            (fun f => strings.HasSuffix f.Filename ".go" && decide (100 < f.Additions)) then
          { Name := "lint", Status := "warning",
            Message := "Found " ++ fmt.d (files.countP
              (fun f => strings.HasSuffix f.Filename ".go" && decide (100 < f.Additions))) ++
              " potential linting issues",
            Time := "" }
        else
          { Name := "lint", Status := "success", Message := "No linting issues found",
            Time := "" }) ∧
      (∀ name : String,
        runLintCheck (.ok (⟨name, 100⟩ :: files)) = runLintCheck (.ok files)) ∧
      runLintCheck (.ok [⟨"main.go", 100⟩]) =
        { Name := "lint", Status := "success", Message := "No linting issues found",
          Time := "" } ∧
      runLintCheck (.ok [⟨"main.go", 101⟩]) =
        { Name := "lint", Status := "warning", Message := "Found 1 potential linting issues",
          Time := "" } := by
  refine ⟨?_, ?_, by decide, by decide⟩
  · simp [runLintCheck, runLintCheck.issues_eq]
  · intro name
    simp [runLintCheck, runLintCheck.issues_eq]

/-! ### Runners that never fail -/

theorem runTestCheck_Status (files : Except String (List CommitFile)) :
    (runTestCheck files).Status ∈ ["success", "warning", "error"] := by
  unfold runTestCheck
  split
  · simp
  · split <;> simp

theorem runLintCheck_Status (files : Except String (List CommitFile)) :
    (runLintCheck files).Status ∈ ["success", "warning", "error"] := by
  unfold runLintCheck
  split
  · simp
  · dsimp only
    split <;> simp

theorem runBuildCheck_Status (files : Except String (List CommitFile)) :
    (runBuildCheck files).Status ∈ ["success", "error"] := by
  unfold runBuildCheck
  split
  · simp
  · split <;> simp

theorem runSpecificCheck_Status_ne_failure (env : Env) (apiCalls : Nat) (checkName : String)
    (h : checkName ≠ "security") :
    (runSpecificCheck env apiCalls checkName).1.Status ≠ "failure" := by
  have hmem3 : ∀ s : String, s ∈ ["success", "warning", "error"] → s ≠ "failure" := by
    intro s hs
    simp only [List.mem_cons, List.mem_singleton, List.not_mem_nil, or_false] at hs
    rcases hs with hs | hs | hs <;> rw [hs] <;> decide
  have hmem2 : ∀ s : String, s ∈ ["success", "error"] → s ≠ "failure" := by
    intro s hs
    simp only [List.mem_cons, List.mem_singleton, List.not_mem_nil, or_false] at hs
    rcases hs with hs | hs <;> rw [hs] <;> decide
  unfold runSpecificCheck
  split
  · exact hmem3 _ (runTestCheck_Status _)
  · split
    · exact hmem3 _ (runLintCheck_Status _)
    · split
      · exact hmem2 _ (runBuildCheck_Status _)
      · simp

theorem runAutomatedChecks.loop_no_failure (env : Env) (names : List String)
    (hnames : ∀ n ∈ names, n ≠ "security") (checks : List CheckResult) (st : RunState)
    (hchecks : ∀ c ∈ checks, c.Status ≠ "failure") :
    ∀ c ∈ (runAutomatedChecks.loop env names checks st).1, c.Status ≠ "failure" := by
  induction names generalizing checks st with
  | nil => simpa [runAutomatedChecks.loop] using hchecks
  | cons checkName rest ih =>
    simp only [runAutomatedChecks.loop]
    apply ih (fun n hn => hnames n (List.mem_cons_of_mem _ hn))
    intro c hc
    rcases List.mem_append.mp hc with hc | hc
    · exact hchecks c hc
    · rw [List.mem_singleton] at hc
      rw [hc]
      exact runSpecificCheck_Status_ne_failure env st.apiCalls checkName
        (hnames checkName (List.mem_cons_self _ _))

/-- C13: whatever the file fetch returns, `runTestCheck` and `runLintCheck` return only
"success", "warning" or "error" and `runBuildCheck` only "success" or "error", never
"failure".  Hence, when no configured check name is "security" (each name is "test",
"lint", "build" or unrecognised), no result of `runAutomatedChecks` is a failure and the
status derived by `updatePRStatus` from those results is "success" when the merge is
allowed and "pending" otherwise. -/
theorem updatePRStatus_never_failure_without_security (env : Env) (config : Config)
    (st : RunState) (canMerge : Bool) (reason : String)
    (h : ∀ n ∈ config.RequiredChecks, n ≠ "security") :
    (∀ files, (runTestCheck files).Status ∈ ["success", "warning", "error"]) ∧
      (∀ files, (runLintCheck files).Status ∈ ["success", "warning", "error"]) ∧
      (∀ files, (runBuildCheck files).Status ∈ ["success", "error"]) ∧
      (∀ c ∈ (runAutomatedChecks env config st).1, c.Status ≠ "failure") ∧
      (updatePRStatus.verdict (runAutomatedChecks env config st).1 canMerge reason).1 =
        (if canMerge then "success" else "pending") ∧
      (updatePRStatus.verdict (runAutomatedChecks env config st).1 canMerge reason).1 ≠
        "failure" := by
  have hall : ∀ c ∈ (runAutomatedChecks env config st).1, c.Status ≠ "failure" :=
    runAutomatedChecks.loop_no_failure env config.RequiredChecks h [] st (by simp)
  have hpass := (updatePRStatus.allPassed_iff (runAutomatedChecks env config st).1).mpr hall
  refine ⟨runTestCheck_Status, runLintCheck_Status, runBuildCheck_Status, hall, ?_, ?_⟩
  · cases canMerge <;> simp [updatePRStatus.verdict, hpass]
  · cases canMerge <;> simp [updatePRStatus.verdict, hpass]

/-- Witness for C13 with the default configuration "test", "lint", "build", a pull request
without changed files and an allowed merge: the derived status is "success". -/
theorem updatePRStatus_never_failure_without_security_witness :
    (∀ n ∈ ["test", "lint", "build"], n ≠ "security") ∧
      (updatePRStatus.verdict
        (runAutomatedChecks ⟨fun _ => .ok [], fun _ => 0, id⟩
          ⟨"t", "s", "8080", 2, ["test", "lint", "build"]⟩ ⟨0, 0, ⟨[], [], 0, 0⟩⟩).1
        true "All merge policies satisfied").1 = "success" :=
  ⟨by decide,
    (updatePRStatus_never_failure_without_security ⟨fun _ => .ok [], fun _ => 0, id⟩
      ⟨"t", "s", "8080", 2, ["test", "lint", "build"]⟩ ⟨0, 0, ⟨[], [], 0, 0⟩⟩ true
      "All merge policies satisfied" (by decide)).2.2.2.2.1⟩

/-! ### One rendered line per check -/

theorem int64_add_left (a b : Int) : int64 (int64 a + b) = int64 (a + b) := by
  unfold int64
  omega

theorem int64_of_range (a : Int) (hlo : -2 ^ 63 ≤ a) (hhi : a < 2 ^ 63) : int64 a = a := by
  unfold int64
  omega

theorem calculateAverageProcessingTime.total_cons (entry : String × time.Duration)
    (rest : List (String × time.Duration)) (total : time.Duration) :
    calculateAverageProcessingTime.total (entry :: rest) total =
      int64 (total + ((entry :: rest).map Prod.snd).sum) := by
  induction rest generalizing entry total with
  | nil =>
    obtain ⟨key, duration⟩ := entry
    simp [calculateAverageProcessingTime.total]
  | cons next rest ih =>
    obtain ⟨key, duration⟩ := entry
    rw [calculateAverageProcessingTime.total, ih]
    simp only [List.map_cons, List.sum_cons]
    rw [int64_add_left, Int.add_assoc]

/-- C11, as stated, fails.  Two recorded durations of 2^62 ns have the mean 2^62 ns, which
renders as "1281023h53m38.427387904s", but the 64-bit sum wraps and the function returns
"-1281023h53m38.427387904s".  For the durations 1 ns and 2 ns it returns "1ns", while no
whole number of nanoseconds is their mean. -/
theorem calculateAverageProcessingTime_not_mean :
    calculateAverageProcessingTime ⟨[("pr1", 2 ^ 62), ("pr2", 2 ^ 62)], [], 2, 0⟩ =
        "-1281023h53m38.427387904s" ∧
      (2 : Int) * 2 ^ 62 = 2 ^ 62 + 2 ^ 62 ∧
      time.Duration.String (2 ^ 62) = "1281023h53m38.427387904s" ∧
      calculateAverageProcessingTime ⟨[("pr1", 1), ("pr2", 2)], [], 2, 0⟩ = "1ns" ∧
      ∀ d : Int, 2 * d ≠ 1 + 2 := by
  refine ⟨by decide, by decide, by decide, by decide, ?_⟩
  intro d h
  omega

/-- C11, amended: as long as the sum of the recorded durations fits the signed 64-bit
range, `calculateAverageProcessingTime` renders the sum divided by the number of entries
(one per distinct key) with the division truncated toward zero to whole nanoseconds,
which is the exact mean whenever the number of entries divides the sum, as for 1s, 3s and
2s, rendered "2s"; for the empty map it returns "0s". -/
theorem calculateAverageProcessingTime_truncated_mean (stats : StatsCollector)
    (hlo : -2 ^ 63 ≤ (stats.PRProcessingTimes.map Prod.snd).sum)
    (hhi : (stats.PRProcessingTimes.map Prod.snd).sum < 2 ^ 63) :
    calculateAverageProcessingTime stats =
        (if stats.PRProcessingTimes.length = 0 then "0s"
          else time.Duration.String
            (Int.tdiv (stats.PRProcessingTimes.map Prod.snd).sum
              stats.PRProcessingTimes.length)) ∧
      ((stats.PRProcessingTimes.length : Int) ∣ (stats.PRProcessingTimes.map Prod.snd).sum →
        Int.tdiv (stats.PRProcessingTimes.map Prod.snd).sum stats.PRProcessingTimes.length *
          stats.PRProcessingTimes.length = (stats.PRProcessingTimes.map Prod.snd).sum) ∧
      calculateAverageProcessingTime ⟨[], [], 0, 0⟩ = "0s" ∧
      calculateAverageProcessingTime
        ⟨[("pr1", 1000000000), ("pr2", 3000000000), ("pr3", 2000000000)], [], 3, 0⟩ = "2s" := by
  refine ⟨?_, Int.tdiv_mul_cancel, by decide, by decide⟩
  unfold calculateAverageProcessingTime
  cases hl : stats.PRProcessingTimes with
  | nil => simp
  | cons entry rest =>
    rw [hl] at hlo hhi
    rw [calculateAverageProcessingTime.total_cons, Int.zero_add, int64_of_range _ hlo hhi]

/-- Witness for the amended C11 on the durations 1s, 3s and 2s of the repository test. -/
theorem calculateAverageProcessingTime_truncated_mean_witness :
    calculateAverageProcessingTime
      ⟨[("pr1", 1000000000), ("pr2", 3000000000), ("pr3", 2000000000)], [], 3, 0⟩ =
        time.Duration.String 2000000000 :=
  (calculateAverageProcessingTime_truncated_mean
    ⟨[("pr1", 1000000000), ("pr2", 3000000000), ("pr3", 2000000000)], [], 3, 0⟩
    (by decide) (by decide)).1.trans (by decide)

end ReviewBot
